import Mathlib

/-!
Shallow embedding of the carbon-calculator core (calculator, emission-factor
table, assessment store, upload pipeline) and proofs about it.

Modelling conventions:
- JavaScript numbers are modelled as exact rationals (`ℚ`).  Every number that
  reaches the core comes from `JSON.parse`, which can only produce finite
  doubles, so `isFinite` checks hold identically and are folded away.
- JavaScript objects used as dictionaries (`Record<string, T>`) are modelled as
  association lists `List (String × T)` with `List.lookup`; object key sets are
  duplicate-free, which appears as `Nodup` hypotheses where it matters.
- `undefined` is modelled as `Option.none`; fields that may be absent are
  `Option`-valued.
- Untrusted parsed-JSON values are modelled by the inductive `JSValue`;
  property access on `null` raises a `JSError`, so functions walking untrusted
  values return `Except JSError _`.
-/

namespace CarbonSpec

/-- Unit of an emission factor: the source union type
of the two strings kgCO2e per square metre and kgCO2e per metre. -/
inductive EFUnit where
  | perArea
  | perLength
deriving DecidableEq, Repr

/-- `EmissionFactor` from types.ts: factor value, unit and material label. -/
structure EmissionFactor where
  factor : ℚ
  unit : EFUnit
  material : String
deriving DecidableEq, Repr

/-- `EmissionFactorsDatabase`: a JS object mapping layer id to factor,
as an association list. -/
abbrev EmissionFactorsDatabase := List (String × EmissionFactor)

/-- A custom (override) factor entry as it exists at runtime: each field may be
absent, matching the defensive `factor !== undefined` / `?? ` handling in
`mergeEmissionFactors`. -/
structure PartialFactor where
  factor : Option ℚ
  unit : Option EFUnit
  material : Option String
deriving DecidableEq, Repr

/-- A custom emission-factor table (per-assessment overrides). -/
abbrev CustomFactors := List (String × PartialFactor)

/-- `Layer` from types.ts: id plus optional area and length quantities. -/
structure Layer where
  id : String
  area : Option ℚ
  length : Option ℚ
deriving DecidableEq, Repr

/-- `SystemLayer` from types.ts: a named group of layers. -/
structure SystemLayer where
  id : String
  layers : List Layer
deriving DecidableEq, Repr

/-- `BuildingMain` from types.ts.  The two floor heights are optional in
validated data. -/
structure BuildingMain where
  gfa : ℚ
  amountOfLevels : ℚ
  floorToFloorHeight : Option ℚ
  floorToFloorHeightGroundFloor : Option ℚ
deriving DecidableEq, Repr

/-- `BuildingData` from types.ts. -/
structure BuildingData where
  main : BuildingMain
  sLayers : List SystemLayer
deriving DecidableEq, Repr

/-- Quantity unit of a layer calculation: square metres or metres. -/
inductive QUnit where
  | m2
  | m
deriving DecidableEq, Repr

/-- `LayerCalculation` from types.ts. -/
structure LayerCalculation where
  id : String
  quantity : ℚ
  unit : QUnit
  emissionFactor : ℚ
  totalEmissions : ℚ
  material : String
deriving DecidableEq, Repr

/-- `SystemCalculation` from types.ts. -/
structure SystemCalculation where
  systemId : String
  layers : List LayerCalculation
  totalEmissions : ℚ
deriving DecidableEq, Repr

/-- `CalculationResult` from types.ts. -/
structure CalculationResult where
  systems : List SystemCalculation
  totalEmissions : ℚ
  carbonIntensity : ℚ
  gfa : ℚ
deriving DecidableEq, Repr

/-- `ValidationError` from types.ts. -/
structure ValidationError where
  field : String
  message : String
deriving DecidableEq, Repr

/-- `calculateLayerEmissions` from calculator.ts: look the layer id up in the
factor table; use `area` for an area-based factor and `length` for a
length-based one; return `none` (skip) when the factor is missing or the
matching quantity field is undefined. -/
def calculateLayerEmissions (layer : Layer)
    (emissionFactors : EmissionFactorsDatabase) : Option LayerCalculation :=
  match List.lookup layer.id emissionFactors with
  | none => none
  | some emissionFactor =>
    match emissionFactor.unit with
    | EFUnit.perArea =>
      match layer.area with
      | some a =>
        some { id := layer.id, quantity := a, unit := QUnit.m2,
               emissionFactor := emissionFactor.factor,
               totalEmissions := a * emissionFactor.factor,
               material := emissionFactor.material }
      | none => none
    | EFUnit.perLength =>
      match layer.length with
      | some l =>
        some { id := layer.id, quantity := l, unit := QUnit.m,
               emissionFactor := emissionFactor.factor,
               totalEmissions := l * emissionFactor.factor,
               material := emissionFactor.material }
      | none => none

/-- `calculateCarbonEmissions` from calculator.ts: per-system layer
calculations (skipping layers with no usable factor), system totals by
`reduce`, the grand total, and `carbonIntensity = totalEmissions / gfa`. -/
def calculateCarbonEmissions (buildingData : BuildingData)
    (emissionFactors : EmissionFactorsDatabase) : CalculationResult :=
  let systems := buildingData.sLayers.map (fun system =>
    let layerCalculations :=
      system.layers.filterMap (fun layer => calculateLayerEmissions layer emissionFactors)
    { systemId := system.id,
      layers := layerCalculations,
      totalEmissions :=
        layerCalculations.foldl (fun sum layer => sum + layer.totalEmissions) 0 })
  let totalEmissions := systems.foldl (fun sum system => sum + system.totalEmissions) 0
  { systems := systems,
    totalEmissions := totalEmissions,
    carbonIntensity := totalEmissions / buildingData.main.gfa,
    gfa := buildingData.main.gfa }

/-- JS object property assignment `m[k] = v`: overwrite the entry when the key
is present, append it otherwise. -/
def setKey {α : Type} (m : List (String × α)) (k : String) (v : α) :
    List (String × α) :=
  if (List.lookup k m).isSome then
    m.map (fun p => if p.1 = k then (k, v) else p)
  else
    m ++ [(k, v)]

/-- `mergeEmissionFactors` from emissionFactorHelpers.ts: start from a copy of
the defaults; for each custom entry whose id exists in the defaults and whose
`factor` is defined, overwrite the entry, falling back to the default `unit`
and `material` when the custom entry omits them.  With no custom table the
defaults are returned unchanged. -/
def mergeStep (defaultFactors : EmissionFactorsDatabase)
    (merged : EmissionFactorsDatabase) (entry : String × PartialFactor) :
    EmissionFactorsDatabase :=
  match List.lookup entry.1 defaultFactors, entry.2.factor with
  | some d, some f =>
    setKey merged entry.1
      { factor := f,
        unit := entry.2.unit.getD d.unit,
        material := entry.2.material.getD d.material }
  | _, _ => merged

/-- Fold of `mergeStep` over the custom entries, starting from the defaults. -/
def mergeEmissionFactors (defaultFactors : EmissionFactorsDatabase) :
    Option CustomFactors → EmissionFactorsDatabase
  | none => defaultFactors
  | some customFactors =>
    customFactors.foldl (mergeStep defaultFactors) defaultFactors

/-- `ManualSystemInputs` from types.ts: the two manual intensities. -/
structure ManualSystemInputs where
  spaceplan : ℚ
  service : ℚ
deriving DecidableEq, Repr

/-- `Assessment` from types.ts: one open carbon assessment. -/
structure Assessment where
  id : String
  name : String
  buildingData : BuildingData
  customEmissionFactors : Option CustomFactors
  manualSystems : Option ManualSystemInputs
  result : CalculationResult
  timestamp : Nat
deriving DecidableEq, Repr

/-- The state owned by the `useAssessments` hook: the ordered open assessments
and the active-id pointer. -/
structure StoreState where
  assessments : List Assessment
  activeId : Option String
deriving DecidableEq, Repr

/-- `MAX_ASSESSMENT_NAME_LENGTH` from constants.ts. -/
def MAX_ASSESSMENT_NAME_LENGTH : Nat := 30

/-- `MAX_ASSESSMENTS` from constants.ts. -/
def MAX_ASSESSMENTS : Nat := 5

/-- `MAX_JSON_DEPTH` from constants.ts. -/
def MAX_JSON_DEPTH : Nat := 20

/-- Character class of the regex used in `extractFilename`: word characters,
whitespace and the hyphen are kept, everything else becomes a space. -/
def isKeptChar (c : Char) : Bool :=
  c.isAlphanum || c = '_' || c.isWhitespace || c = '-'

/-- Collapse each maximal run of spaces to a single space
(the source first maps all whitespace to a space). -/
def squeezeSpaces : List Char → List Char
  | [] => []
  | [c] => [c]
  | a :: b :: rest =>
    if a = ' ' && b = ' ' then squeezeSpaces (b :: rest)
    else a :: squeezeSpaces (b :: rest)

/-- `extractFilename` from useAssessments.ts: trim, drop a trailing case
insensitive json extension, strip leading and trailing dots and spaces, map
disallowed characters to spaces, collapse whitespace runs, fall back to
Untitled when empty, and truncate over-long names with an ellipsis. -/
def extractFilename (filename : String) : String :=
  let name := filename.trim
  if name = "" || name = (".json") then ("Untitled")
  else
    let name := if name.toLower.endsWith (".json") then name.dropRight 5 else name
    let isDotOrSpace := fun (c : Char) => c = '.' || c.isWhitespace
    let cs := ((name.toList.dropWhile isDotOrSpace).reverse.dropWhile isDotOrSpace).reverse
    let cs := cs.map (fun c => if isKeptChar c then c else ' ')
    let cs := squeezeSpaces (cs.map (fun c => if c.isWhitespace then ' ' else c))
    let name := (String.mk cs).trim
    if name = "" then ("Untitled")
    else if MAX_ASSESSMENT_NAME_LENGTH < name.length then
      name.take (MAX_ASSESSMENT_NAME_LENGTH - 3) ++ ("...")
    else name

/-- Fuelled form of the while loop in `ensureUniqueName`; the fuel given to it
always suffices because the candidate names are pairwise distinct. -/
def uniqueNameLoop (name : String) (existingNames : List String) :
    Nat → Nat → String
  | 0, counter => name ++ (" (") ++ toString counter ++ (")")
  | fuel + 1, counter =>
    let uniqueName := name ++ (" (") ++ toString counter ++ (")")
    if uniqueName ∈ existingNames then
      uniqueNameLoop name existingNames fuel (counter + 1)
    else uniqueName

/-- `ensureUniqueName` from useAssessments.ts: append a numeric suffix until
the name collides with no currently open assessment. -/
def ensureUniqueName (name : String) (existingNames : List String) : String :=
  if name ∈ existingNames then
    uniqueNameLoop name existingNames (existingNames.length + 1) 2
  else name

/-- Outcome object returned by `addAssessment` and `replaceAssessment`. -/
inductive AddResult where
  | success (id : String)
  | failure (message : String)
deriving DecidableEq, Repr

/-- Outcome object returned by `updateAssessmentEmissionFactors`. -/
inductive UpdateFactorsResult where
  | success (cleared : Bool) (factorCount : Nat)
  | failure (message : String)
deriving DecidableEq, Repr

/-- `addAssessment` from useAssessments.ts.  The generated unique id and the
current time are nondeterministic inputs and appear as parameters.  With no
loaded factor table the call fails and the state is unchanged; otherwise the
new assessment (name de-duplicated against the open set, result computed with
the default factors) is appended and made active. -/
def addAssessment (emissionFactors : Option EmissionFactorsDatabase)
    (s : StoreState) (freshId : String) (now : Nat)
    (buildingData : BuildingData) (filename : String) :
    StoreState × AddResult :=
  match emissionFactors with
  | none => (s, AddResult.failure ("Cannot add assessment: emission factors not loaded"))
  | some factors =>
    let baseName := extractFilename filename
    let existingNames := s.assessments.map (fun a => a.name)
    let name := ensureUniqueName baseName existingNames
    let result := calculateCarbonEmissions buildingData factors
    let newAssessment : Assessment :=
      { id := freshId, name := name, buildingData := buildingData,
        customEmissionFactors := none, manualSystems := none,
        result := result, timestamp := now }
    ({ assessments := s.assessments ++ [newAssessment], activeId := some freshId },
     AddResult.success freshId)

/-- `removeAssessment` from useAssessments.ts: drop the assessment; when it was
active and others remain, select the element now at the removed index (or the
new last element), mirroring the JS `findIndex` result `-1` and the
`filtered[nextIndex]?.id || null` fallbacks exactly; when none remain the
active pointer becomes null. -/
def removeAssessment (s : StoreState) (id : String) : StoreState :=
  let wasActive := s.activeId = some id
  let filtered := s.assessments.filter (fun a => !(a.id = id))
  let newActiveId :=
    if wasActive ∧ 0 < filtered.length then
      let removedIndex : Int :=
        (s.assessments.findIdx? (fun a => a.id = id)).elim (-1) Int.ofNat
      let nextIndex : Int :=
        if removedIndex < Int.ofNat filtered.length then removedIndex
        else Int.ofNat filtered.length - 1
      if nextIndex < 0 then none
      else
        match filtered[nextIndex.toNat]? with
        | some a => if a.id = "" then none else some a.id
        | none => none
    else if filtered.length = 0 then none
    else s.activeId
  { assessments := filtered, activeId := newActiveId }

/-- `updateAssessmentEmissionFactors` from useAssessments.ts: fail when the
default table is unavailable or the id is unknown; otherwise store the
overrides on that assessment (dropping the field when they are empty),
recalculate its result with the merged table, and leave everything else
untouched. -/
def updateAssessmentEmissionFactors
    (emissionFactors : Option EmissionFactorsDatabase) (s : StoreState)
    (id : String) (customFactors : CustomFactors) :
    StoreState × UpdateFactorsResult :=
  match emissionFactors with
  | none =>
    (s, UpdateFactorsResult.failure
      ("Cannot update emission factors: emission factors not loaded"))
  | some factors =>
    match s.assessments.find? (fun a => a.id = id) with
    | none => (s, UpdateFactorsResult.failure ("Assessment not found"))
    | some _ =>
      let newAssessments := s.assessments.map (fun assessment =>
        if assessment.id = id then
          let mergedFactors := mergeEmissionFactors factors (some customFactors)
          let result := calculateCarbonEmissions assessment.buildingData mergedFactors
          { assessment with
              customEmissionFactors :=
                if 0 < customFactors.length then some customFactors else none,
              result := result }
        else assessment)
      ({ s with assessments := newAssessments },
       UpdateFactorsResult.success (customFactors.length == 0) customFactors.length)

/-- App-level state around the store, from App.tsx: upload errors, the pending
upload awaiting a replacement choice, the replace dialog flag and the
in-progress flag. -/
structure AppState where
  store : StoreState
  errors : List ValidationError
  pendingUpload : Option (BuildingData × String)
  showReplaceDialog : Bool
  isProcessing : Bool
deriving DecidableEq, Repr

/-- `handleDataLoaded` from App.tsx (net effect of one call): error out when
factors are not loaded, ignore re-entrant calls, and otherwise either hold the
upload and open the replace dialog (at capacity) or delegate to
`addAssessment`. -/
def handleDataLoaded (emissionFactors : Option EmissionFactorsDatabase)
    (app : AppState) (freshId : String) (now : Nat)
    (data : BuildingData) (filename : String) : AppState :=
  match emissionFactors with
  | none => { app with errors := [⟨"system", "Emission factors not loaded"⟩] }
  | some _ =>
    if app.isProcessing then app
    else if MAX_ASSESSMENTS ≤ app.store.assessments.length then
      { app with
          errors := []
          pendingUpload := some (data, filename)
          showReplaceDialog := true }
    else
      { app with
          errors := []
          store := (addAssessment emissionFactors app.store freshId now data filename).1 }

/-- Modelled from the spec: `updateManualSystems` has no implementation under
the source tree (only its UI caller and the design document
feature-update-3.md, which quotes the intended hook body, exist); this follows
spec section 4.5 and that quoted body.  It removes any pre-existing synthetic
Spaceplan and Service systems, appends — only for each value strictly greater
than zero — a synthetic system holding one layer whose area is the gfa,
installs a matching custom factor equal to the user input while preserving
custom factors for other layers, and recalculates with the merged table. -/
def updateManualSystems (emissionFactors : EmissionFactorsDatabase)
    (assessment : Assessment) (manualSystems : ManualSystemInputs) : Assessment :=
  let gfa := assessment.buildingData.main.gfa
  let filtered := assessment.buildingData.sLayers.filter
    (fun s => !(s.id = "Spaceplan") && !(s.id = "Service"))
  let withSpaceplan :=
    if 0 < manualSystems.spaceplan then
      filtered ++ [{ id := "Spaceplan",
                     layers := [{ id := "Spaceplan", area := some gfa, length := none }] }]
    else filtered
  let newSLayers :=
    if 0 < manualSystems.service then
      withSpaceplan ++ [{ id := "Service",
                          layers := [{ id := "Service", area := some gfa, length := none }] }]
    else withSpaceplan
  let updatedBuildingData := { assessment.buildingData with sLayers := newSLayers }
  let existingCustomFactors := assessment.customEmissionFactors.getD []
  let customFactors :=
    if 0 < manualSystems.spaceplan then
      setKey existingCustomFactors ("Spaceplan")
        { factor := some manualSystems.spaceplan,
          unit := some EFUnit.perArea,
          material := some ("Space planning and interior fit-out") }
    else existingCustomFactors
  let customFactors :=
    if 0 < manualSystems.service then
      setKey customFactors ("Service")
        { factor := some manualSystems.service,
          unit := some EFUnit.perArea,
          material := some ("Building services (HVAC, electrical, plumbing)") }
    else customFactors
  let mergedFactors := mergeEmissionFactors emissionFactors (some customFactors)
  let result := calculateCarbonEmissions updatedBuildingData mergedFactors
  { assessment with
      buildingData := updatedBuildingData,
      customEmissionFactors := some customFactors,
      manualSystems := some manualSystems,
      result := result }

/-- A parsed JSON value, the input of `validateBuildingData` and the upload
pipeline.  `JSON.parse` can only produce these shapes. -/
inductive JSValue where
  | null
  | bool (b : Bool)
  | num (q : ℚ)
  | str (s : String)
  | arr (elems : List JSValue)
  | obj (fields : List (String × JSValue))

/-- A runtime exception (a TypeError raised by a property read on null). -/
structure JSError where
  message : String
deriving DecidableEq, Repr

/-- JS truthiness of a parsed JSON value. -/
def jsTruthy : JSValue → Bool
  | JSValue.null => false
  | JSValue.bool b => b
  | JSValue.num q => !(q = 0)
  | JSValue.str s => !(s = "")
  | JSValue.arr _ => true
  | JSValue.obj _ => true

/-- Whether `typeof v` is the string object (true for objects, arrays and
null). -/
def jsTypeofIsObject : JSValue → Bool
  | JSValue.null => true
  | JSValue.obj _ => true
  | JSValue.arr _ => true
  | _ => false

/-- Whether the value is a non-null object or an array (the guard used before
recursing in the upload pipeline helpers). -/
def jsIsObjLike : JSValue → Bool
  | JSValue.obj _ => true
  | JSValue.arr _ => true
  | _ => false

/-- Property read on a value that is known not to be null: objects yield the
field (or undefined), primitives and arrays yield undefined for the keys the
validator reads. -/
def jsProp : JSValue → String → Option JSValue
  | JSValue.obj fields, k => List.lookup k fields
  | _, _ => none

/-- Property read with JS semantics: reading a property of null raises a
TypeError; otherwise as `jsProp` (undefined is `none`). -/
def getProp (v : JSValue) (k : String) : Except JSError (Option JSValue) :=
  match v with
  | JSValue.null =>
    Except.error ⟨"TypeError: cannot read properties of null, key " ++ k⟩
  | _ => Except.ok (jsProp v k)

/-- Whether a read field counts as supplied: not undefined and not null
(the `!== undefined && !== null` test on `area` and `length`). -/
def jsDefined : Option JSValue → Bool
  | none => false
  | some JSValue.null => false
  | some _ => true

/-- The dangerous key triad checked by `hasPrototypePollution`. -/
def dangerousKeys : List String := ["__proto__", "constructor", "prototype"]

mutual

/-- `hasPrototypePollution` from fileProcessor.ts: an object with one of the
dangerous keys as an own property, or any nested object or array value
containing one. -/
def hasPrototypePollution : JSValue → Bool
  | JSValue.obj fields =>
    dangerousKeys.any (fun k => fields.any (fun p => p.1 = k))
      || hasPollutionFields fields
  | JSValue.arr elems => hasPollutionElems elems
  | _ => false

/-- Recursion of `hasPrototypePollution` over the own properties of an
object. -/
def hasPollutionFields : List (String × JSValue) → Bool
  | [] => false
  | (_, v) :: rest =>
    (jsIsObjLike v && hasPrototypePollution v) || hasPollutionFields rest

/-- Recursion of `hasPrototypePollution` over the elements of an array. -/
def hasPollutionElems : List JSValue → Bool
  | [] => false
  | v :: rest => (jsIsObjLike v && hasPrototypePollution v) || hasPollutionElems rest

end

mutual

/-- `getJSONDepth` from fileProcessor.ts: the maximal nesting depth, recursing
only into non-null object and array values. -/
def getJSONDepth : JSValue → Nat → Nat
  | JSValue.obj fields, currentDepth => depthFields fields currentDepth
  | JSValue.arr elems, currentDepth => depthElems elems currentDepth
  | _, currentDepth => currentDepth

/-- Depth recursion over object values. -/
def depthFields : List (String × JSValue) → Nat → Nat
  | [], currentDepth => currentDepth
  | (_, v) :: rest, currentDepth =>
    max (if jsIsObjLike v then getJSONDepth v (currentDepth + 1) else currentDepth)
      (depthFields rest currentDepth)

/-- Depth recursion over array elements. -/
def depthElems : List JSValue → Nat → Nat
  | [], currentDepth => currentDepth
  | v :: rest, currentDepth =>
    max (if jsIsObjLike v then getJSONDepth v (currentDepth + 1) else currentDepth)
      (depthElems rest currentDepth)

end

/-- The id character class of the validator regex: ASCII letters, digits,
whitespace, hyphen, underscore and dot. -/
def isIdChar (c : Char) : Bool :=
  c.isAlphanum || c.isWhitespace || c = '-' || c = '_' || c = '.'

/-- The id checks shared by systems and layers in `validateBuildingData`:
a non-empty string, at most 100 characters, drawn from the allowed charset. -/
def checkIdValue (idOpt : Option JSValue) (fieldName : String) (kind : String) :
    List ValidationError :=
  match idOpt with
  | some (JSValue.str s) =>
    if s = "" then [⟨fieldName, kind ++ " must have a valid string id"⟩]
    else if 100 < s.length then [⟨fieldName, kind ++ " id too long (max 100 chars)"⟩]
    else if !(s.toList.all isIdChar) then
      [⟨fieldName, kind ++ " id contains invalid characters"⟩]
    else []
  | _ => [⟨fieldName, kind ++ " must have a valid string id"⟩]

/-- The quantity checks on a supplied `area` or `length` value: a non-negative
(finite) number below the stated maximum. -/
def checkQuantity (qOpt : Option JSValue) (fieldName : String)
    (notNumMsg : String) (maxValue : ℚ) (maxMsg : String) : List ValidationError :=
  match qOpt with
  | some (JSValue.num q) =>
    if q < 0 then [⟨fieldName, notNumMsg⟩]
    else if maxValue < q then [⟨fieldName, maxMsg⟩]
    else []
  | _ => [⟨fieldName, notNumMsg⟩]

/-- The gfa checks of `validateBuildingData`: a positive (finite) number of at
most one million. -/
def checkGfa (gfaOpt : Option JSValue) : List ValidationError :=
  match gfaOpt with
  | some (JSValue.num q) =>
    if q ≤ 0 then [⟨"main.gfa", "GFA must be a positive finite number"⟩]
    else if 1000000 < q then
      [⟨"main.gfa", "GFA exceeds reasonable maximum (1,000,000 m²)"⟩]
    else []
  | _ => [⟨"main.gfa", "GFA must be a positive finite number"⟩]

/-- The amountOfLevels checks: a positive integer of at most 200. -/
def checkLevels (levelsOpt : Option JSValue) : List ValidationError :=
  match levelsOpt with
  | some (JSValue.num q) =>
    if q ≤ 0 || !(q.den = 1) then
      [⟨"main.amountOfLevels", "Amount of levels must be a positive integer"⟩]
    else if 200 < q then
      [⟨"main.amountOfLevels", "Amount of levels exceeds reasonable maximum (200)"⟩]
    else []
  | _ => [⟨"main.amountOfLevels", "Amount of levels must be a positive integer"⟩]

/-- Checks for the two optional floor heights: validated only when present. -/
def checkOptionalHeight (heightOpt : Option JSValue) (fieldName : String)
    (notNumMsg : String) (maxValue : ℚ) (maxMsg : String) : List ValidationError :=
  match heightOpt with
  | none => []
  | some (JSValue.num q) =>
    if q ≤ 0 then [⟨fieldName, notNumMsg⟩]
    else if maxValue < q then [⟨fieldName, maxMsg⟩]
    else []
  | some _ => [⟨fieldName, notNumMsg⟩]

/-- The main-section branch of `validateBuildingData` (it performs no property
read that can throw, so it is a pure error list). -/
def validateMain (data : JSValue) : List ValidationError :=
  match jsProp data ("main") with
  | some m =>
    if jsTruthy m then
      checkGfa (jsProp m ("gfa"))
        ++ checkLevels (jsProp m ("amountOfLevels"))
        ++ checkOptionalHeight (jsProp m ("floorToFloorHeight"))
            ("main.floorToFloorHeight")
            ("Floor to floor height must be a positive finite number") 10
            ("Floor height exceeds reasonable maximum (10m)")
        ++ checkOptionalHeight (jsProp m ("floorToFloorHeightGroundFloor"))
            ("main.floorToFloorHeightGroundFloor")
            ("Ground floor height must be a positive finite number") 15
            ("Ground floor height exceeds reasonable maximum (15m)")
    else [⟨"main", "Missing \"main\" section"⟩]
  | none => [⟨"main", "Missing \"main\" section"⟩]

/-- Per-layer validation.  The read of `layer.id` throws when the array entry
is null, exactly as in the source. -/
def checkLayer (layer : JSValue) (index layerIndex : Nat) :
    Except JSError (List ValidationError) := do
  let base := "sLayers[" ++ toString index ++ "].layers[" ++ toString layerIndex ++ "]"
  let lidOpt ← getProp layer ("id")
  let idErrs := checkIdValue lidOpt (base ++ ".id") ("Layer")
  let areaOpt ← getProp layer ("area")
  let lengthOpt ← getProp layer ("length")
  let hasArea := jsDefined areaOpt
  let hasLength := jsDefined lengthOpt
  let missingErrs :=
    if !hasArea && !hasLength then [⟨base, "Layer must have either area or length"⟩]
    else []
  let areaErrs :=
    if hasArea then
      checkQuantity areaOpt (base ++ ".area")
        ("Area must be a non-negative finite number") 1000000
        ("Area exceeds reasonable maximum (1,000,000 m²)")
    else []
  let lengthErrs :=
    if hasLength then
      checkQuantity lengthOpt (base ++ ".length")
        ("Length must be a non-negative finite number") 100000
        ("Length exceeds reasonable maximum (100,000 m)")
    else []
  return idErrs ++ missingErrs ++ areaErrs ++ lengthErrs

/-- The forEach over a system's layers, accumulating errors in order and
propagating any thrown TypeError. -/
def checkLayersList (layers : List JSValue) (index layerIndex : Nat) :
    Except JSError (List ValidationError) :=
  match layers with
  | [] => Except.ok []
  | l :: rest => do
    let errs ← checkLayer l index layerIndex
    let restErrs ← checkLayersList rest index (layerIndex + 1)
    return errs ++ restErrs

/-- Per-system validation: the id checks, then the layers array shape, size
and per-layer checks. -/
def checkSystem (system : JSValue) (index : Nat) :
    Except JSError (List ValidationError) := do
  let base := "sLayers[" ++ toString index ++ "]"
  let sidOpt ← getProp system ("id")
  let idErrs := checkIdValue sidOpt (base ++ ".id") ("System")
  let layersOpt ← getProp system ("layers")
  match layersOpt with
  | some (JSValue.arr layers) => do
    let countErrs :=
      if 100 < layers.length then
        [⟨base ++ ".layers", "Too many layers in system (max 100)"⟩]
      else []
    let layerErrs ← checkLayersList layers index 0
    return idErrs ++ countErrs ++ layerErrs
  | _ => return idErrs ++ [⟨base ++ ".layers", "System must have a layers array"⟩]

/-- The forEach over the sLayers array. -/
def checkSystemsList (systems : List JSValue) (index : Nat) :
    Except JSError (List ValidationError) :=
  match systems with
  | [] => Except.ok []
  | s :: rest => do
    let errs ← checkSystem s index
    let restErrs ← checkSystemsList rest (index + 1)
    return errs ++ restErrs

/-- The sLayers branch of `validateBuildingData`. -/
def validateSLayers (data : JSValue) : Except JSError (List ValidationError) :=
  match jsProp data ("sLayers") with
  | some (JSValue.arr systems) => do
    let countErrs :=
      if 100 < systems.length then [⟨"sLayers", "Too many systems (max 100)"⟩]
      else []
    let sysErrs ← checkSystemsList systems 0
    return countErrs ++ sysErrs
  | _ => Except.ok [⟨"sLayers", "Missing or invalid \"sLayers\" array"⟩]

/-- `validateBuildingData` from calculator.ts over an untrusted parsed JSON
value: the root shape check short-circuits, then the main and sLayers branches
accumulate their errors; property reads on null array entries raise a
TypeError, which propagates out of the function. -/
def validateBuildingData (data : JSValue) : Except JSError (List ValidationError) :=
  if !(jsTruthy data && jsTypeofIsObject data) then
    Except.ok [⟨"root", "Invalid JSON structure"⟩]
  else do
    let sErrs ← validateSLayers data
    return validateMain data ++ sErrs

/-- The post-parse pipeline of `processJSONFile` from fileProcessor.ts:
prototype-pollution check, depth check, then structural validation (a thrown
TypeError is caught and reported as a single file error); on success the raw
value is cast to BuildingData. -/
def processParsedJSON (jsonData : JSValue) :
    Except (List ValidationError) JSValue :=
  if hasPrototypePollution jsonData then
    Except.error [⟨"file", "Invalid JSON structure: contains dangerous properties"⟩]
  else if MAX_JSON_DEPTH < getJSONDepth jsonData 0 then
    Except.error [⟨"file", "JSON structure too deep (max 20 levels)"⟩]
  else
    match validateBuildingData jsonData with
    | Except.error e => Except.error [⟨"file", e.message⟩]
    | Except.ok errors =>
      if 0 < errors.length then Except.error errors
      else Except.ok jsonData

/-- The condition of claim C9, in the words of the spec: at some nesting depth
the document contains an object whose own property set includes one of the
dangerous keys. -/
inductive hasDangerousKey : JSValue → Prop where
  | here (fields : List (String × JSValue)) (k : String) :
      k ∈ fields.map Prod.fst → k ∈ dangerousKeys →
      hasDangerousKey (JSValue.obj fields)
  | nestObj (fields : List (String × JSValue)) (p : String × JSValue) :
      p ∈ fields → hasDangerousKey p.2 → hasDangerousKey (JSValue.obj fields)
  | nestArr (elems : List JSValue) (v : JSValue) :
      v ∈ elems → hasDangerousKey v → hasDangerousKey (JSValue.arr elems)

/-! ### Helper lemmas -/

theorem foldl_add_eq_sum {α : Type} (f : α → ℚ) (xs : List α) (a : ℚ) :
    xs.foldl (fun sum x => sum + f x) a = a + (xs.map f).sum := by
  induction xs generalizing a with
  | nil => simp
  | cons x xs ih => simp [ih]; ring

theorem calculateLayerEmissions_total (layer : Layer)
    (emissionFactors : EmissionFactorsDatabase) (lc : LayerCalculation)
    (h : calculateLayerEmissions layer emissionFactors = some lc) :
    lc.totalEmissions = lc.quantity * lc.emissionFactor ∧ lc.id = layer.id := by
  unfold calculateLayerEmissions at h
  cases hl : List.lookup layer.id emissionFactors with
  | none => simp [hl] at h
  | some ef =>
    simp only [hl] at h
    cases hu : ef.unit with
    | perArea =>
      cases ha : layer.area with
      | none => simp [hu, ha] at h
      | some a => simp [hu, ha] at h; simp [← h]
    | perLength =>
      cases hb : layer.length with
      | none => simp [hu, hb] at h
      | some l => simp [hu, hb] at h; simp [← h]

/-! ### C1 -/

/-- C1: for every building and factor table, the result's totalEmissions is
the sum of the systems' totalEmissions, each system's totalEmissions is the
sum of its included layers' totalEmissions, and each included layer's
totalEmissions is its quantity times its emission factor. -/
theorem calc_totals_are_sums (b : BuildingData) (f : EmissionFactorsDatabase) :
    (calculateCarbonEmissions b f).totalEmissions
      = ((calculateCarbonEmissions b f).systems.map
          (fun s => s.totalEmissions)).sum
    ∧ (∀ s ∈ (calculateCarbonEmissions b f).systems,
        s.totalEmissions = (s.layers.map (fun l => l.totalEmissions)).sum)
    ∧ (∀ s ∈ (calculateCarbonEmissions b f).systems, ∀ l ∈ s.layers,
        l.totalEmissions = l.quantity * l.emissionFactor) := by
  refine ⟨?_, ?_, ?_⟩
  · simp only [calculateCarbonEmissions]
    rw [foldl_add_eq_sum]
    simp
  · intro s hs
    simp only [calculateCarbonEmissions, List.mem_map] at hs
    obtain ⟨sys, _, rfl⟩ := hs
    simp only
    rw [foldl_add_eq_sum]
    simp
  · intro s hs l hl
    simp only [calculateCarbonEmissions, List.mem_map] at hs
    obtain ⟨sys, _, rfl⟩ := hs
    simp only [List.mem_filterMap] at hl
    obtain ⟨layer, _, hc⟩ := hl
    exact (calculateLayerEmissions_total layer f l hc).1

/-! ### C2 -/

/-- The skip condition in the words of the spec: the layer id has no entry in
the effective table, or the factor is area-based while the layer's area is
undefined, or length-based while the layer's length is undefined. -/
def specSkipsLayer (f : EmissionFactorsDatabase) (layer : Layer) : Bool :=
  match List.lookup layer.id f with
  | none => true
  | some e =>
    match e.unit with
    | EFUnit.perArea => layer.area.isNone
    | EFUnit.perLength => layer.length.isNone

theorem calculateLayerEmissions_none_iff (layer : Layer)
    (f : EmissionFactorsDatabase) :
    calculateLayerEmissions layer f = none ↔ specSkipsLayer f layer = true := by
  unfold calculateLayerEmissions specSkipsLayer
  cases List.lookup layer.id f with
  | none => simp
  | some e =>
    cases hu : e.unit with
    | perArea => cases ha : layer.area <;> simp [hu, ha]
    | perLength => cases hb : layer.length <;> simp [hu, hb]

theorem filterMap_calc_ids (f : EmissionFactorsDatabase) (ls : List Layer) :
    (ls.filterMap (fun l => calculateLayerEmissions l f)).map
        (fun lc => lc.id)
      = (ls.filter (fun l => !(specSkipsLayer f l))).map (fun l => l.id) := by
  induction ls with
  | nil => simp
  | cons l ls ih =>
    cases hc : calculateLayerEmissions l f with
    | none =>
      have hskip := (calculateLayerEmissions_none_iff l f).mp hc
      simp [hc, hskip, ih]
    | some lc =>
      have hskip : ¬ specSkipsLayer f l = true := by
        intro h
        rw [← calculateLayerEmissions_none_iff] at h
        rw [hc] at h
        cases h
      simp [hc, hskip, ih, (calculateLayerEmissions_total l f lc hc).2]

/-- C2: a layer with no factor entry, or an area-based factor but no area, or
a length-based factor but no length, is omitted from the result, while every
other layer is included; the function still returns a full result with one
system per input system, in order. -/
theorem calc_skips_unmatched_layers (b : BuildingData)
    (f : EmissionFactorsDatabase) :
    (calculateCarbonEmissions b f).systems.length = b.sLayers.length
    ∧ (∀ (i : Nat) (sys : SystemCalculation) (slay : SystemLayer),
        (calculateCarbonEmissions b f).systems[i]? = some sys →
        b.sLayers[i]? = some slay →
        sys.systemId = slay.id
        ∧ sys.layers.map (fun lc => lc.id)
            = (slay.layers.filter (fun l => !(specSkipsLayer f l))).map
                (fun l => l.id)) := by
  constructor
  · simp [calculateCarbonEmissions]
  · intro i sys slay hsys hslay
    simp only [calculateCarbonEmissions, List.getElem?_map, hslay,
      Option.map_some] at hsys
    cases hsys
    exact ⟨rfl, filterMap_calc_ids f slay.layers⟩

/-! ### C3: merge lemmas -/

theorem lookup_cons_self {α : Type} (k : String) (v : α)
    (rest : List (String × α)) : List.lookup k ((k, v) :: rest) = some v := by
  simp [List.lookup]

theorem lookup_cons_ne {α : Type} (j k : String) (v : α)
    (rest : List (String × α)) (h : ¬ j = k) :
    List.lookup j ((k, v) :: rest) = List.lookup j rest := by
  have hb : (j == k) = false := beq_eq_false_iff_ne.mpr h
  simp [List.lookup, hb]

theorem lookup_isSome_iff {α : Type} (j : String) (m : List (String × α)) :
    (List.lookup j m).isSome ↔ j ∈ m.map Prod.fst := by
  induction m with
  | nil => simp [List.lookup]
  | cons p rest ih =>
    obtain ⟨k, v⟩ := p
    by_cases h : j = k
    · subst h
      simp [lookup_cons_self]
    · simp [lookup_cons_ne j k v rest h, ih, h]

theorem lookup_append {α : Type} (j : String) (m n : List (String × α)) :
    List.lookup j (m ++ n)
      = match List.lookup j m with
        | some v => some v
        | none => List.lookup j n := by
  induction m with
  | nil => simp [List.lookup]
  | cons p rest ih =>
    obtain ⟨k, v⟩ := p
    by_cases h : j = k
    · subst h
      simp [lookup_cons_self]
    · simp [lookup_cons_ne j k v _ h, ih]

theorem lookup_map_upd {α : Type} (j : String) (v : α)
    (m : List (String × α)) :
    List.lookup j (m.map (fun p => if p.1 = j then (j, v) else p))
      = (List.lookup j m).map (fun _ => v) := by
  induction m with
  | nil => simp [List.lookup]
  | cons p rest ih =>
    obtain ⟨k, w⟩ := p
    by_cases h : k = j
    · subst h
      simp [lookup_cons_self]
    · have h2 : ¬ j = k := fun hh => h hh.symm
      simp only [List.map_cons, if_neg h, lookup_cons_ne j k w _ h2,
        lookup_cons_ne j k w rest h2]
      exact ih

theorem lookup_map_upd_ne {α : Type} (j k : String) (v : α)
    (m : List (String × α)) (h : ¬ j = k) :
    List.lookup j (m.map (fun p => if p.1 = k then (k, v) else p))
      = List.lookup j m := by
  induction m with
  | nil => simp [List.lookup]
  | cons p rest ih =>
    obtain ⟨k2, w⟩ := p
    by_cases h2 : k2 = k
    · subst h2
      simp only [List.map_cons, if_true]
      rw [lookup_cons_ne j k2 v _ h, lookup_cons_ne j k2 w rest h]
      exact ih
    · by_cases h3 : j = k2
      · subst h3
        simp [if_neg h2, lookup_cons_self]
      · simp only [List.map_cons, if_neg h2, lookup_cons_ne j k2 w _ h3]
        exact ih

theorem setKey_lookup_self {α : Type} (m : List (String × α)) (k : String)
    (v : α) : List.lookup k (setKey m k v) = some v := by
  unfold setKey
  by_cases hs : (List.lookup k m).isSome
  · rw [if_pos hs, lookup_map_upd]
    obtain ⟨w, hw⟩ := Option.isSome_iff_exists.mp hs
    simp [hw]
  · rw [if_neg hs, lookup_append]
    have : List.lookup k m = none := Option.not_isSome_iff_eq_none.mp hs
    simp [this, lookup_cons_self]

theorem setKey_lookup_ne {α : Type} (m : List (String × α)) (j k : String)
    (v : α) (h : ¬ j = k) :
    List.lookup j (setKey m k v) = List.lookup j m := by
  unfold setKey
  by_cases hs : (List.lookup k m).isSome
  · rw [if_pos hs, lookup_map_upd_ne j k v m h]
  · rw [if_neg hs, lookup_append]
    cases hm : List.lookup j m with
    | none =>
      have hb : (j == k) = false := beq_eq_false_iff_ne.mpr h
      simp [List.lookup, hb]
    | some w => simp

theorem setKey_keys_of_mem {α : Type} (m : List (String × α)) (k : String)
    (v : α) (hs : (List.lookup k m).isSome) :
    (setKey m k v).map Prod.fst = m.map Prod.fst := by
  unfold setKey
  rw [if_pos hs, List.map_map]
  apply List.map_congr_left
  intro p _
  by_cases h : p.1 = k
  · simp [h]
  · simp [h]

theorem mergeFold_keys (d : EmissionFactorsDatabase) (c : CustomFactors) :
    ∀ m : EmissionFactorsDatabase, m.map Prod.fst = d.map Prod.fst →
    (c.foldl (mergeStep d) m).map Prod.fst = d.map Prod.fst := by
  induction c with
  | nil => intro m hm; simpa using hm
  | cons e rest ih =>
    intro m hm
    simp only [List.foldl_cons]
    apply ih
    unfold mergeStep
    cases hd : List.lookup e.1 d with
    | none => simpa using hm
    | some dE =>
      cases hf : e.2.factor with
      | none => simpa using hm
      | some fv =>
        simp only
        rw [setKey_keys_of_mem]
        · exact hm
        · rw [lookup_isSome_iff, hm, ← lookup_isSome_iff, hd]
          rfl

theorem mergeFold_lookup_not_mem (d : EmissionFactorsDatabase)
    (c : CustomFactors) (j : String) (hj : j ∉ c.map Prod.fst) :
    ∀ m : EmissionFactorsDatabase,
    List.lookup j (c.foldl (mergeStep d) m) = List.lookup j m := by
  induction c with
  | nil => intro m; rfl
  | cons e rest ih =>
    intro m
    simp only [List.map_cons, List.mem_cons] at hj
    push_neg at hj
    simp only [List.foldl_cons]
    rw [ih hj.2]
    unfold mergeStep
    cases hd : List.lookup e.1 d with
    | none => rfl
    | some dE =>
      cases hf : e.2.factor with
      | none => rfl
      | some fv => exact setKey_lookup_ne m j e.1 _ hj.1

theorem mergeFold_lookup (d : EmissionFactorsDatabase) (c : CustomFactors)
    (j : String) (dE : EmissionFactor) (cE : PartialFactor) (v : ℚ)
    (hn : (c.map Prod.fst).Nodup) (hd : List.lookup j d = some dE)
    (hc : List.lookup j c = some cE) (hv : cE.factor = some v) :
    ∀ m : EmissionFactorsDatabase, m.map Prod.fst = d.map Prod.fst →
    List.lookup j (c.foldl (mergeStep d) m)
      = some ⟨v, cE.unit.getD dE.unit, cE.material.getD dE.material⟩ := by
  induction c with
  | nil => simp [List.lookup] at hc
  | cons e rest ih =>
    intro m hm
    obtain ⟨k, cf⟩ := e
    simp only [List.map_cons, List.nodup_cons] at hn
    by_cases hjk : j = k
    · subst hjk
      rw [lookup_cons_self] at hc
      cases hc
      simp only [List.foldl_cons]
      rw [mergeFold_lookup_not_mem d rest j hn.1]
      unfold mergeStep
      simp only [hd, hv]
      exact setKey_lookup_self m j _
    · rw [lookup_cons_ne j k cf rest hjk] at hc
      simp only [List.foldl_cons]
      apply ih hn.2 hc
      unfold mergeStep
      cases hd2 : List.lookup k d with
      | none => exact hm
      | some dE2 =>
        cases hf : cf.factor with
        | none => exact hm
        | some fv =>
          simp only
          rw [setKey_keys_of_mem]
          · exact hm
          · rw [lookup_isSome_iff, hm, ← lookup_isSome_iff, hd2]
            rfl

/-- C3: merging with no override table returns the defaults unchanged; merging
with an empty table is structurally equal to the defaults; for an id present
in both tables the merged factor is the override's factor with unit and
material falling back to the default entry; and the merged key set equals the
default key set (ids absent from the defaults are ignored). -/
theorem merge_spec :
    (∀ d : EmissionFactorsDatabase, mergeEmissionFactors d none = d)
    ∧ (∀ d : EmissionFactorsDatabase, mergeEmissionFactors d (some []) = d)
    ∧ (∀ (d : EmissionFactorsDatabase) (c : CustomFactors) (j : String)
        (dE : EmissionFactor) (cE : PartialFactor) (v : ℚ),
        (c.map Prod.fst).Nodup → List.lookup j d = some dE →
        List.lookup j c = some cE → cE.factor = some v →
        List.lookup j (mergeEmissionFactors d (some c))
          = some ⟨v, cE.unit.getD dE.unit, cE.material.getD dE.material⟩)
    ∧ (∀ (d : EmissionFactorsDatabase) (c : CustomFactors),
        (mergeEmissionFactors d (some c)).map Prod.fst = d.map Prod.fst) := by
  refine ⟨fun d => rfl, fun d => rfl, ?_, ?_⟩
  · intro d c j dE cE v hn hd hc hv
    exact mergeFold_lookup d c j dE cE v hn hd hc hv d rfl
  · intro d c
    exact mergeFold_keys d c d rfl

/-! ### C5 -/

/-- C5: with the default table loaded and the id present,
`updateAssessmentEmissionFactors` stores the overrides on that assessment
(dropping the field entirely when they are empty), recomputes only that
assessment's result from its building data and the merged table, and leaves
every other assessment and the active pointer unchanged. -/
theorem updateFactors_frame (factors : EmissionFactorsDatabase)
    (s : StoreState) (id : String) (ov : CustomFactors)
    (hfound : (s.assessments.find? (fun a => a.id = id)).isSome) :
    ((updateAssessmentEmissionFactors (some factors) s id ov).1.activeId
        = s.activeId)
    ∧ ((updateAssessmentEmissionFactors (some factors) s id ov).1.assessments.length
        = s.assessments.length)
    ∧ (∀ (i : Nat) (a : Assessment), s.assessments[i]? = some a → ¬ a.id = id →
        (updateAssessmentEmissionFactors (some factors) s id ov).1.assessments[i]?
          = some a)
    ∧ (∀ (i : Nat) (a : Assessment), s.assessments[i]? = some a → a.id = id →
        (updateAssessmentEmissionFactors (some factors) s id ov).1.assessments[i]?
          = some { a with
              customEmissionFactors := if 0 < ov.length then some ov else none,
              result := calculateCarbonEmissions a.buildingData
                (mergeEmissionFactors factors (some ov)) }) := by
  obtain ⟨a0, ha0⟩ := Option.isSome_iff_exists.mp hfound
  refine ⟨?_, ?_, ?_, ?_⟩
  · simp [updateAssessmentEmissionFactors, ha0]
  · simp [updateAssessmentEmissionFactors, ha0]
  · intro i a hi hne
    simp [updateAssessmentEmissionFactors, ha0, List.getElem?_map, hi, hne]
  · intro i a hi heq
    simp [updateAssessmentEmissionFactors, ha0, List.getElem?_map, hi, heq]

/-! ### C6 -/

/-- C6: removing the active assessment keeps the other assessments (in order)
and selects as new active the assessment now occupying the removed one's
former index, the new last element when the removed one was last, and null
when none remain. -/
theorem removeAssessment_successor (s : StoreState) (id : String) (i : Nat)
    (hactive : s.activeId = some id)
    (hidx : s.assessments.findIdx? (fun a => a.id = id) = some i)
    (hids : ∀ a ∈ s.assessments, ¬ a.id = "") :
    ((removeAssessment s id).assessments
        = s.assessments.filter (fun a => !(a.id = id)))
    ∧ ((removeAssessment s id).activeId
        = ((s.assessments.filter (fun a => !(a.id = id)))[min i
            ((s.assessments.filter (fun a => !(a.id = id))).length - 1)]?).map
              (fun a => a.id)) := by
  constructor
  · rfl
  · unfold removeAssessment
    simp only [hactive, hidx, Option.elim, Int.ofNat_eq_coe]
    by_cases hlen : 0 < (s.assessments.filter (fun a => !(a.id = id))).length
    · rw [if_pos ⟨trivial, hlen⟩]
      set fil := s.assessments.filter (fun a => !(a.id = id)) with hfil
      by_cases hcmp : (i : Int) < (fil.length : Int)
      · rw [if_pos hcmp]
        have hin : ¬ ((i : Int) < 0) := by omega
        rw [if_neg hin]
        have hmin : min i (fil.length - 1) = i := by omega
        rw [hmin]
        have htn : ((i : Int)).toNat = i := by omega
        rw [htn]
        cases hget : fil[i]? with
        | none =>
          rw [List.getElem?_eq_none_iff] at hget
          omega
        | some a =>
          obtain ⟨hlt, heq⟩ := List.getElem?_eq_some_iff.mp hget
          have hmem : a ∈ fil := heq ▸ List.getElem_mem hlt
          have hane : ¬ a.id = "" :=
            hids a (List.mem_of_mem_filter hmem)
          simp [hane]
      · rw [if_neg hcmp]
        have hin : ¬ (((fil.length : Int)) - 1 < 0) := by omega
        rw [if_neg hin]
        have hmin : min i (fil.length - 1) = fil.length - 1 := by omega
        rw [hmin]
        have htn : (((fil.length : Int)) - 1).toNat = fil.length - 1 := by omega
        rw [htn]
        cases hget : fil[fil.length - 1]? with
        | none =>
          rw [List.getElem?_eq_none_iff] at hget
          omega
        | some a =>
          obtain ⟨hlt, heq⟩ := List.getElem?_eq_some_iff.mp hget
          have hmem : a ∈ fil := heq ▸ List.getElem_mem hlt
          have hane : ¬ a.id = "" :=
            hids a (List.mem_of_mem_filter hmem)
          simp [hane]
    · rw [if_neg (fun hh => hlen hh.2)]
      have hz : (s.assessments.filter (fun a => !(a.id = id))).length = 0 := by
        omega
      rw [if_pos hz]
      rw [List.length_eq_zero] at hz
      simp [hz]

/-! ### C4 -/

/-- A minimal valid building used in concrete store scenarios. -/
def exBD : BuildingData := ⟨⟨1, 1, none, none⟩, []⟩

/-- An empty factor table for concrete store scenarios. -/
def exDb : EmissionFactorsDatabase := []

/-- A ready-made assessment with the given id, used to build concrete store
states. -/
def mkAssessment (s : String) : Assessment :=
  ⟨s, s, exBD, none, none, calculateCarbonEmissions exBD exDb, 0⟩

/-- A store already holding five (= MAX_ASSESSMENTS) open assessments. -/
def fiveStore : StoreState :=
  ⟨[mkAssessment ("a1"), mkAssessment ("a2"), mkAssessment ("a3"),
    mkAssessment ("a4"), mkAssessment ("a5")], some ("a1")⟩

/-- An app state over `fiveStore` with no upload in progress. -/
def fiveApp : AppState := ⟨fiveStore, [], none, false, false⟩

/-- C4 counterexample: calling the store's own `addAssessment` on a state that
already holds MAX_ASSESSMENTS assessments silently appends a sixth one and
reports success, so the store itself does not enforce the cap. -/
theorem addAssessment_ignores_cap :
    fiveStore.assessments.length = MAX_ASSESSMENTS
    ∧ (addAssessment (some exDb) fiveStore ("a6") 0 exBD
        ("sixth.json")).1.assessments.length = MAX_ASSESSMENTS + 1
    ∧ (addAssessment (some exDb) fiveStore ("a6") 0 exBD ("sixth.json")).2
        = AddResult.success ("a6") := by
  refine ⟨rfl, ?_, rfl⟩
  simp [addAssessment, fiveStore, MAX_ASSESSMENTS]

/-- C4 amended: the open-assessment cap is enforced by the caller
`handleDataLoaded` in the App layer, not by the store: at or above capacity it
leaves the store untouched and signals the replacement choice by holding the
pending upload and opening the replace dialog, while `addAssessment` itself
always appends when the factor table is loaded. -/
theorem capacity_enforced_by_caller (factors : EmissionFactorsDatabase)
    (app : AppState) (freshId : String) (now : Nat) (data : BuildingData)
    (filename : String) (hproc : app.isProcessing = false)
    (hcap : MAX_ASSESSMENTS ≤ app.store.assessments.length) :
    handleDataLoaded (some factors) app freshId now data filename
      = { app with
            errors := []
            pendingUpload := some (data, filename)
            showReplaceDialog := true }
    ∧ (∀ s : StoreState,
        (addAssessment (some factors) s freshId now data filename).1.assessments.length
          = s.assessments.length + 1) := by
  constructor
  · simp [handleDataLoaded, hproc, hcap]
  · intro s
    simp [addAssessment]

/-- Witness for C4 amended at the concrete five-assessment app state. -/
theorem capacity_enforced_by_caller_witness :
    fiveApp.isProcessing = false
    ∧ MAX_ASSESSMENTS ≤ fiveApp.store.assessments.length
    ∧ handleDataLoaded (some exDb) fiveApp ("a6") 0 exBD ("sixth.json")
        = { fiveApp with
              errors := []
              pendingUpload := some (exBD, "sixth.json")
              showReplaceDialog := true } :=
  ⟨rfl, by decide,
    (capacity_enforced_by_caller exDb fiveApp ("a6") 0 exBD ("sixth.json")
      rfl (by decide)).1⟩

/-! ### C7 -/

theorem setKey_keys_nodup {α : Type} (m : List (String × α)) (k : String)
    (v : α) (hn : (m.map Prod.fst).Nodup) :
    ((setKey m k v).map Prod.fst).Nodup := by
  by_cases hs : (List.lookup k m).isSome
  · rw [setKey_keys_of_mem m k v hs]
    exact hn
  · unfold setKey
    rw [if_neg hs]
    have hk : k ∉ m.map Prod.fst := by
      rw [← lookup_isSome_iff]
      exact hs
    simp [List.nodup_append, hn, hk]

/-- The synthetic Spaceplan custom entry installed for an input of 50. -/
def spaceplanEntry50 : PartialFactor :=
  ⟨some 50, some EFUnit.perArea, some ("Space planning and interior fit-out")⟩

/-- C7: `updateManualSystems` with inputs spaceplan 50 and service 0 on an
assessment whose gfa is 10000 removes any pre-existing synthetic systems,
appends exactly one synthetic Spaceplan system holding a single layer with
area 10000 and no Service system, installs a Spaceplan custom factor of 50
preserving custom factors at every other key, and the recalculated Spaceplan
system total is 500000. -/
theorem updateManualSystems_spec (ef : EmissionFactorsDatabase)
    (a : Assessment) (hg : a.buildingData.main.gfa = 10000)
    (hsp : (List.lookup ("Spaceplan") ef).isSome)
    (hnd : ((a.customEmissionFactors.getD []).map Prod.fst).Nodup) :
    ((updateManualSystems ef a ⟨50, 0⟩).buildingData.sLayers
        = (a.buildingData.sLayers.filter
            (fun s => !(s.id = "Spaceplan") && !(s.id = "Service")))
          ++ [⟨"Spaceplan", [⟨"Spaceplan", some 10000, none⟩]⟩])
    ∧ (((updateManualSystems ef a ⟨50, 0⟩).result.systems.map
          (fun sc => sc.systemId)).count "Spaceplan" = 1)
    ∧ (((updateManualSystems ef a ⟨50, 0⟩).result.systems.map
          (fun sc => sc.systemId)).count "Service" = 0)
    ∧ (((updateManualSystems ef a ⟨50, 0⟩).result.systems.getLast?).map
          (fun sc => (sc.systemId, sc.totalEmissions))
        = some ("Spaceplan", 500000))
    ∧ (List.lookup ("Spaceplan")
          ((updateManualSystems ef a ⟨50, 0⟩).customEmissionFactors.getD [])
        = some spaceplanEntry50)
    ∧ (∀ k : String, ¬ k = "Spaceplan" →
        List.lookup k
            ((updateManualSystems ef a ⟨50, 0⟩).customEmissionFactors.getD [])
          = List.lookup k (a.customEmissionFactors.getD [])) := by
  have h50 : (0 : ℚ) < 50 := by norm_num
  have h0 : ¬ ((0 : ℚ) < 0) := by norm_num
  have hred : updateManualSystems ef a ⟨50, 0⟩
      = { a with
            buildingData := { a.buildingData with
              sLayers :=
                (a.buildingData.sLayers.filter
                  (fun s => !(s.id = "Spaceplan") && !(s.id = "Service")))
                ++ [⟨"Spaceplan",
                    [⟨"Spaceplan", some a.buildingData.main.gfa, none⟩]⟩] }
            customEmissionFactors := some (setKey (a.customEmissionFactors.getD [])
              ("Spaceplan") spaceplanEntry50)
            manualSystems := some ⟨50, 0⟩
            result := calculateCarbonEmissions
              { a.buildingData with
                sLayers :=
                  (a.buildingData.sLayers.filter
                    (fun s => !(s.id = "Spaceplan") && !(s.id = "Service")))
                  ++ [⟨"Spaceplan",
                      [⟨"Spaceplan", some a.buildingData.main.gfa, none⟩]⟩] }
              (mergeEmissionFactors ef
                (some (setKey (a.customEmissionFactors.getD [])
                  ("Spaceplan") spaceplanEntry50))) } := by
    simp only [updateManualSystems, if_pos h50, if_neg h0, spaceplanEntry50]
  obtain ⟨dE, hdE⟩ := Option.isSome_iff_exists.mp hsp
  set existing := a.customEmissionFactors.getD [] with hex
  set custom := setKey existing ("Spaceplan") spaceplanEntry50 with hcu
  set fil := a.buildingData.sLayers.filter
    (fun s => !(s.id = "Spaceplan") && !(s.id = "Service")) with hfil
  set merged := mergeEmissionFactors ef (some custom) with hmg
  have hcustomNodup : (custom.map Prod.fst).Nodup :=
    setKey_keys_nodup existing ("Spaceplan") spaceplanEntry50 hnd
  have hcuSelf : List.lookup ("Spaceplan") custom = some spaceplanEntry50 :=
    setKey_lookup_self existing ("Spaceplan") spaceplanEntry50
  have hmerged : List.lookup ("Spaceplan") merged
      = some ⟨50, EFUnit.perArea, "Space planning and interior fit-out"⟩ := by
    have := mergeFold_lookup ef custom ("Spaceplan") dE spaceplanEntry50 50
      hcustomNodup hdE hcuSelf rfl ef rfl
    simpa [mergeEmissionFactors, spaceplanEntry50] using this
  have hnotSpace : "Spaceplan" ∉ fil.map (fun s => s.id) := by
    intro hmem
    rw [List.mem_map] at hmem
    obtain ⟨s, hs, hsid⟩ := hmem
    have := List.of_mem_filter hs
    rw [hsid] at this
    simp at this
  have hnotService : "Service" ∉ fil.map (fun s => s.id) := by
    intro hmem
    rw [List.mem_map] at hmem
    obtain ⟨s, hs, hsid⟩ := hmem
    have := List.of_mem_filter hs
    rw [hsid] at this
    simp at this
  have hsysIds : ((updateManualSystems ef a ⟨50, 0⟩).result.systems.map
      (fun sc => sc.systemId))
      = fil.map (fun s => s.id) ++ ["Spaceplan"] := by
    rw [hred]
    simp [calculateCarbonEmissions, List.map_map, hg]
  have hlayerCalc : calculateLayerEmissions ⟨"Spaceplan", some 10000, none⟩ merged
      = some ⟨"Spaceplan", 10000, QUnit.m2, 50, 500000,
          "Space planning and interior fit-out"⟩ := by
    unfold calculateLayerEmissions
    rw [show (⟨"Spaceplan", some 10000, none⟩ : Layer).id = "Spaceplan" from rfl,
      hmerged]
    norm_num
  refine ⟨?_, ?_, ?_, ?_, ?_, ?_⟩
  · rw [hred]
    simp [hg]
  · rw [hsysIds, List.count_append]
    rw [List.count_eq_zero.mpr hnotSpace]
    rfl
  · rw [hsysIds, List.count_append]
    rw [List.count_eq_zero.mpr hnotService]
    rfl
  · rw [hred]
    simp only [calculateCarbonEmissions, hg]
    rw [List.map_append, List.getLast?_append]
    simp only [List.map_cons, List.map_nil, List.getLast?_singleton,
      Option.or_some, Option.map_some]
    rw [List.filterMap_cons]
    rw [hlayerCalc]
    simp
  · rw [hred]
    simpa using hcuSelf
  · intro k hk
    rw [hred]
    simpa using setKey_lookup_ne existing k ("Spaceplan") spaceplanEntry50 hk

/-! ### C8 -/

/-- A well-formed document except that the sLayers array contains a null
entry, which is valid JSON. -/
def c8FailingDoc : JSValue :=
  JSValue.obj
    [("main", JSValue.obj
        [("gfa", JSValue.num 100), ("amountOfLevels", JSValue.num 2)]),
     ("sLayers", JSValue.arr [JSValue.null])]

/-- C8 evaluation: on a document whose sLayers array contains a null entry,
`validateBuildingData` raises a TypeError (reading the id of null) instead of
returning a validation-error list, and the surrounding upload pipeline only
recovers it as a generic file error. -/
theorem validateBuildingData_throws_on_null_entry :
    validateBuildingData c8FailingDoc
      = Except.error ⟨"TypeError: cannot read properties of null, key id"⟩
    ∧ processParsedJSON c8FailingDoc
      = Except.error
          [⟨"file", "TypeError: cannot read properties of null, key id"⟩] := by
  constructor
  · rfl
  · rfl

/-! ### C9 -/

theorem hasPollutionFields_eq_any (fields : List (String × JSValue)) :
    hasPollutionFields fields
      = fields.any (fun p => jsIsObjLike p.2 && hasPrototypePollution p.2) := by
  induction fields with
  | nil => rfl
  | cons p rest ih =>
    obtain ⟨k, v⟩ := p
    rw [hasPollutionFields, List.any_cons, ih]

theorem hasPollutionElems_eq_any (elems : List JSValue) :
    hasPollutionElems elems
      = elems.any (fun v => jsIsObjLike v && hasPrototypePollution v) := by
  induction elems with
  | nil => rfl
  | cons v rest ih =>
    rw [hasPollutionElems, List.any_cons, ih]

theorem hasDangerousKey_objLike (v : JSValue) (h : hasDangerousKey v) :
    jsIsObjLike v = true := by
  cases h <;> rfl

theorem hasDangerousKey_hasPP (v : JSValue) (h : hasDangerousKey v) :
    hasPrototypePollution v = true := by
  induction h with
  | here fields k hkmem hkdang =>
    rw [hasPrototypePollution, Bool.or_eq_true, List.any_eq_true]
    left
    refine ⟨k, hkdang, ?_⟩
    rw [List.any_eq_true]
    rw [List.mem_map] at hkmem
    obtain ⟨p, hp, hpk⟩ := hkmem
    exact ⟨p, hp, by simp [hpk]⟩
  | nestObj fields p hpmem hd ih =>
    rw [hasPrototypePollution, Bool.or_eq_true]
    right
    rw [hasPollutionFields_eq_any, List.any_eq_true]
    exact ⟨p, hpmem, by simp [hasDangerousKey_objLike p.2 hd, ih]⟩
  | nestArr elems v2 hvmem hd ih =>
    rw [hasPrototypePollution, hasPollutionElems_eq_any, List.any_eq_true]
    exact ⟨v2, hvmem, by simp [hasDangerousKey_objLike v2 hd, ih]⟩

/-- C9: any uploaded document containing, at any nesting depth, an object
whose own property set includes one of the dangerous keys is rejected by the
pipeline with that single error, before structural validation and without
producing a BuildingData value. -/
theorem pollution_rejected (j : JSValue) (h : hasDangerousKey j) :
    processParsedJSON j
      = Except.error
          [⟨"file", "Invalid JSON structure: contains dangerous properties"⟩] := by
  unfold processParsedJSON
  rw [if_pos (hasDangerousKey_hasPP j h)]

/-- A structurally broken document hiding a dangerous key two levels deep. -/
def c9Doc : JSValue :=
  JSValue.obj [("main", JSValue.obj [("__proto__", JSValue.num 1)])]

/-- Witness for C9 at a concrete polluted document. -/
theorem pollution_rejected_witness :
    processParsedJSON c9Doc
      = Except.error
          [⟨"file", "Invalid JSON structure: contains dangerous properties"⟩] :=
  pollution_rejected c9Doc
    (hasDangerousKey.nestObj _ ("main", JSValue.obj [("__proto__", JSValue.num 1)])
      (by simp)
      (hasDangerousKey.here _ ("__proto__") (by simp) (by simp [dangerousKeys])))

/-! ### C10 -/

/-- A building with a negative gfa, as could reach the calculator only by
bypassing validation. -/
def c10BD : BuildingData :=
  ⟨⟨-5, 1, none, none⟩, [⟨"Skin", [⟨"Roof", some 10, none⟩]⟩]⟩

/-- A one-entry factor table for the C10 scenario. -/
def c10Db : EmissionFactorsDatabase := [("Roof", ⟨1, EFUnit.perArea, "concrete"⟩)]

/-- C10 counterexample: on an input with gfa = -5 the result's carbonIntensity
is exactly totalEmissions / gfa = -2, so the division is performed on a
non-positive gfa; there is no guard inside `calculateCarbonEmissions`. -/
theorem carbonIntensity_division_counterexample :
    c10BD.main.gfa ≤ 0
    ∧ (calculateCarbonEmissions c10BD c10Db).carbonIntensity
        = (calculateCarbonEmissions c10BD c10Db).totalEmissions / c10BD.main.gfa
    ∧ (calculateCarbonEmissions c10BD c10Db).carbonIntensity = -2 := by
  refine ⟨by norm_num [c10BD], rfl, ?_⟩
  have hlayer : calculateLayerEmissions ⟨"Roof", some 10, none⟩ c10Db
      = some ⟨"Roof", 10, QUnit.m2, 1, 10, "concrete"⟩ := by
    simp [calculateLayerEmissions, c10Db, List.lookup]
  show (calculateCarbonEmissions c10BD c10Db).carbonIntensity = -2
  simp [calculateCarbonEmissions, c10BD, hlayer]
  norm_num

theorem checkGfa_eq_nil (o : Option JSValue) (h : checkGfa o = []) :
    ∃ q : ℚ, o = some (JSValue.num q) ∧ 0 < q ∧ q ≤ 1000000 := by
  cases o with
  | none => simp [checkGfa] at h
  | some v =>
    cases v with
    | num q =>
      simp only [checkGfa] at h
      by_cases h1 : q ≤ 0
      · rw [if_pos h1] at h
        simp at h
      · rw [if_neg h1] at h
        by_cases h2 : 1000000 < q
        · rw [if_pos h2] at h
          simp at h
        · exact ⟨q, rfl, lt_of_not_le h1, le_of_not_lt h2⟩
    | null => simp [checkGfa] at h
    | bool b => simp [checkGfa] at h
    | str s => simp [checkGfa] at h
    | arr elems => simp [checkGfa] at h
    | obj fields => simp [checkGfa] at h

/-- C10 amended: `calculateCarbonEmissions` computes
carbonIntensity = totalEmissions / gfa unconditionally for every input; the
guard against a non-positive gfa lives upstream: a document accepted by
`validateBuildingData` (empty error list) necessarily carries a main.gfa that
is a number strictly between 0 and one million inclusive. -/
theorem division_guard_is_upstream :
    (∀ (b : BuildingData) (f : EmissionFactorsDatabase),
        (calculateCarbonEmissions b f).carbonIntensity
          = (calculateCarbonEmissions b f).totalEmissions / b.main.gfa)
    ∧ (∀ doc : JSValue, validateBuildingData doc = Except.ok [] →
        ∃ (m : JSValue) (q : ℚ), jsProp doc ("main") = some m
          ∧ jsProp m ("gfa") = some (JSValue.num q) ∧ 0 < q ∧ q ≤ 1000000) := by
  constructor
  · intro b f
    rfl
  · intro doc h
    unfold validateBuildingData at h
    by_cases hroot : !(jsTruthy doc && jsTypeofIsObject doc)
    · rw [if_pos hroot] at h
      simp at h
    · rw [if_neg hroot] at h
      cases hv : validateSLayers doc with
      | error e =>
        rw [hv] at h
        simp [Bind.bind, Except.bind] at h
      | ok sErrs =>
        rw [hv] at h
        simp only [Bind.bind, Except.bind, Pure.pure, Except.pure,
          Except.ok.injEq] at h
        have hmain : validateMain doc = [] := List.append_eq_nil.mp h |>.1
        unfold validateMain at hmain
        cases hm : jsProp doc ("main") with
        | none =>
          simp only [hm] at hmain
          simp at hmain
        | some m =>
          simp only [hm] at hmain
          by_cases ht : jsTruthy m
          · rw [if_pos ht] at hmain
            simp only [List.append_eq_nil] at hmain
            have hgfa : checkGfa (jsProp m ("gfa")) = [] := hmain.1.1.1
            obtain ⟨q, hq, hq1, hq2⟩ := checkGfa_eq_nil _ hgfa
            exact ⟨m, q, rfl, hq, hq1, hq2⟩
          · rw [if_neg ht] at hmain
            simp at hmain

/-- A minimal document accepted by the validator, for the C10 witness. -/
def c10OkDoc : JSValue :=
  JSValue.obj
    [("main", JSValue.obj
        [("gfa", JSValue.num 5), ("amountOfLevels", JSValue.num 1)]),
     ("sLayers", JSValue.arr [])]

/-- Witness for C10 amended at a concrete validated document. -/
theorem division_guard_is_upstream_witness :
    validateBuildingData c10OkDoc = Except.ok []
    ∧ ∃ (m : JSValue) (q : ℚ), jsProp c10OkDoc ("main") = some m
        ∧ jsProp m ("gfa") = some (JSValue.num q) ∧ 0 < q ∧ q ≤ 1000000 :=
  ⟨rfl, division_guard_is_upstream.2 c10OkDoc rfl⟩

/-! ### Concrete witnesses -/

/-- A system with one layer that has a factor and one with none. -/
def exSL1 : SystemLayer :=
  ⟨"Skin", [⟨"Roof", some 10, none⟩, ⟨"Mystery", some 4, none⟩]⟩

/-- A one-system building for concrete calculator runs. -/
def exB1 : BuildingData := ⟨⟨100, 2, none, none⟩, [exSL1]⟩

/-- A factor table covering only the Roof layer. -/
def exF1 : EmissionFactorsDatabase := [("Roof", ⟨2, EFUnit.perArea, "concrete"⟩)]

/-- The layer calculation produced for the Roof layer of `exB1`. -/
def exLay1 : LayerCalculation := ⟨"Roof", 10, QUnit.m2, 2, 20, "concrete"⟩

/-- The system calculation produced for `exSL1`. -/
def exSys1 : SystemCalculation := ⟨"Skin", [exLay1], 20⟩

theorem exB1_systems_eval :
    (calculateCarbonEmissions exB1 exF1).systems = [exSys1] := by
  simp [calculateCarbonEmissions, calculateLayerEmissions, exB1, exF1, exSL1,
    exSys1, exLay1, List.lookup]
  norm_num

/-- Witness for C1 at the concrete one-system building. -/
theorem calc_totals_are_sums_witness :
    ((calculateCarbonEmissions exB1 exF1).totalEmissions
      = ((calculateCarbonEmissions exB1 exF1).systems.map
          (fun s => s.totalEmissions)).sum)
    ∧ (exSys1.totalEmissions = (exSys1.layers.map (fun l => l.totalEmissions)).sum)
    ∧ (exLay1.totalEmissions = exLay1.quantity * exLay1.emissionFactor) :=
  ⟨(calc_totals_are_sums exB1 exF1).1,
   (calc_totals_are_sums exB1 exF1).2.1 exSys1 (by rw [exB1_systems_eval]; simp),
   (calc_totals_are_sums exB1 exF1).2.2 exSys1 (by rw [exB1_systems_eval]; simp)
     exLay1 (by simp [exSys1])⟩

/-- Witness for C2: on `exB1` the Mystery layer (no factor entry) is omitted
while Roof stays, with the result still covering the Skin system. -/
theorem calc_skips_unmatched_layers_witness :
    exSys1.systemId = exSL1.id
    ∧ exSys1.layers.map (fun lc => lc.id)
        = (exSL1.layers.filter (fun l => !(specSkipsLayer exF1 l))).map
            (fun l => l.id) :=
  (calc_skips_unmatched_layers exB1 exF1).2 0 exSys1 exSL1
    (by rw [exB1_systems_eval]; rfl) rfl

/-- A two-entry default table for the merge witness. -/
def d3 : EmissionFactorsDatabase :=
  [("Roof", ⟨2, EFUnit.perArea, "brick"⟩), ("Pile", ⟨3, EFUnit.perLength, "steel"⟩)]

/-- An override carrying only a factor for Roof. -/
def c3 : CustomFactors := [("Roof", ⟨some 7, none, none⟩)]

/-- Witness for C3 at a concrete table and override. -/
theorem merge_spec_witness :
    (mergeEmissionFactors d3 none = d3)
    ∧ (mergeEmissionFactors d3 (some []) = d3)
    ∧ (List.lookup ("Roof") (mergeEmissionFactors d3 (some c3))
        = some ⟨7, EFUnit.perArea, "brick"⟩)
    ∧ ((mergeEmissionFactors d3 (some c3)).map Prod.fst = d3.map Prod.fst) := by
  refine ⟨merge_spec.1 d3, merge_spec.2.1 d3, ?_, merge_spec.2.2.2 d3 c3⟩
  have h := merge_spec.2.2.1 d3 c3 ("Roof") ⟨2, EFUnit.perArea, "brick"⟩
    ⟨some 7, none, none⟩ 7 (by decide) (by decide) (by decide) rfl
  simpa using h

/-- A two-assessment store for the C5 witness. -/
def s5 : StoreState := ⟨[mkAssessment ("b1"), mkAssessment ("b2")], some ("b1")⟩

/-- The override installed in the C5 witness. -/
def ov5 : CustomFactors := [("Roof", ⟨some 7, none, none⟩)]

/-- Witness for C5: updating b1 keeps the pointer and b2 untouched and
rewrites exactly b1. -/
theorem updateFactors_frame_witness :
    ((updateAssessmentEmissionFactors (some exDb) s5 ("b1") ov5).1.activeId
        = s5.activeId)
    ∧ ((updateAssessmentEmissionFactors (some exDb) s5 ("b1") ov5).1.assessments[1]?
        = some (mkAssessment ("b2")))
    ∧ ((updateAssessmentEmissionFactors (some exDb) s5 ("b1") ov5).1.assessments[0]?
        = some { mkAssessment ("b1") with
            customEmissionFactors := if 0 < ov5.length then some ov5 else none
            result := calculateCarbonEmissions (mkAssessment ("b1")).buildingData
              (mergeEmissionFactors exDb (some ov5)) }) :=
  ⟨(updateFactors_frame exDb s5 ("b1") ov5 (by decide)).1,
   (updateFactors_frame exDb s5 ("b1") ov5 (by decide)).2.2.1 1
     (mkAssessment ("b2")) rfl (by decide),
   (updateFactors_frame exDb s5 ("b1") ov5 (by decide)).2.2.2 0
     (mkAssessment ("b1")) rfl rfl⟩

/-- A three-assessment store A, B, C with the given active id. -/
def abc (active : String) : StoreState :=
  ⟨[mkAssessment ("A"), mkAssessment ("B"), mkAssessment ("C")], some active⟩

/-- Witness for C6: removing active B from A,B,C selects C; removing active C
(the last) selects B. -/
theorem removeAssessment_successor_witness :
    ((removeAssessment (abc ("B")) ("B")).activeId = some ("C"))
    ∧ ((removeAssessment (abc ("C")) ("C")).activeId = some ("B")) := by
  constructor
  · have h := (removeAssessment_successor (abc ("B")) ("B") 1 rfl (by decide)
      (by decide)).2
    rw [h]
    decide
  · have h := (removeAssessment_successor (abc ("C")) ("C") 2 rfl (by decide)
      (by decide)).2
    rw [h]
    decide

/-- An assessment with gfa 10000 and no custom factors for the C7 witness. -/
def a7 : Assessment :=
  ⟨"m1", "m1", ⟨⟨10000, 1, none, none⟩, []⟩, none, none,
   calculateCarbonEmissions exBD exDb, 0⟩

/-- A default table carrying the Spaceplan and Service placeholder entries. -/
def ef7 : EmissionFactorsDatabase :=
  [("Spaceplan", ⟨1, EFUnit.perArea, "placeholder"⟩),
   ("Service", ⟨1, EFUnit.perArea, "placeholder"⟩)]

/-- Witness for C7 at the concrete assessment with gfa 10000. -/
theorem updateManualSystems_spec_witness :
    (((updateManualSystems ef7 a7 ⟨50, 0⟩).result.systems.map
        (fun sc => sc.systemId)).count "Spaceplan" = 1)
    ∧ (((updateManualSystems ef7 a7 ⟨50, 0⟩).result.systems.map
        (fun sc => sc.systemId)).count "Service" = 0)
    ∧ (((updateManualSystems ef7 a7 ⟨50, 0⟩).result.systems.getLast?).map
          (fun sc => (sc.systemId, sc.totalEmissions))
        = some ("Spaceplan", 500000))
    ∧ (List.lookup ("Spaceplan")
          ((updateManualSystems ef7 a7 ⟨50, 0⟩).customEmissionFactors.getD [])
        = some spaceplanEntry50) :=
  ⟨(updateManualSystems_spec ef7 a7 rfl (by decide) (by decide)).2.1,
   (updateManualSystems_spec ef7 a7 rfl (by decide) (by decide)).2.2.1,
   (updateManualSystems_spec ef7 a7 rfl (by decide) (by decide)).2.2.2.1,
   (updateManualSystems_spec ef7 a7 rfl (by decide) (by decide)).2.2.2.2.1⟩

end CarbonSpec
